import Mathlib

/-!
Verification development for the pdf-extractor repository.

The repository's core logic (table rectangularization, numeric
canonicalization, row classification, schema mapping) is shallowly embedded
here.  Python strings are Lean `String`s manipulated through their `List Char`
data (Lean's iterator-based string functions do not kernel-reduce, the list
functions do); Python floats arising from parsing decimal text are modelled as
rationals (`ℚ`); Python `None` cells are `Option.none` or the `Value.null`
constructor as appropriate; Python functions that can receive `None`, a float
or a string receive a `Value`.

Modelling notes, valid for every definition below:
* `Char.isWhitespace` covers space, tab, CR and LF.  Python's `str.strip()`
  also strips `\x0b` and `\x0c`; no input considered here contains those.
* Python's `float()` also accepts the special words `inf`, `infinity` and
  `nan` (any case, optionally signed) and digit-group underscores; those
  produce IEEE specials or are exotic spellings that no claim exercises, and
  they are outside the rational model, so `parseFloatChars` rejects them.
* Python `str(f)` for a float `f` prints the shortest round-tripping decimal;
  for floats with integral value (the only ones any claim renders) this is
  the integer followed by `.0`, which `pyFloatRepr` reproduces exactly.
-/

/-- A canonicalized cell value: Python `None`, a float, or a string. -/
inductive Value where
  | null
  | num (q : ℚ)
  | text (s : String)
deriving DecidableEq

/-- Python `str.strip()` at the character-list level: drop leading and
trailing whitespace. -/
def stripChars (l : List Char) : List Char :=
  ((l.dropWhile Char.isWhitespace).reverse.dropWhile Char.isWhitespace).reverse

/-- Python `str.lower()` at the character-list level (ASCII case mapping;
every input considered is ASCII). -/
def lowerChars (l : List Char) : List Char :=
  l.map Char.toLower

/-- Value of a list of decimal digit characters. -/
def digitsVal (l : List Char) : ℕ :=
  l.foldl (fun n c => 10 * n + (c.toNat - 48)) 0

/-- Does the list start with the given character? -/
def firstIs (c : Char) : List Char → Bool
  | [] => false
  | a :: _ => a = c

/-- Does the list end with the given character? -/
def lastIs (c : Char) (l : List Char) : Bool :=
  firstIs c l.reverse

/-- Python slice `s[1:-1]`: drop the first and the last character. -/
def innerSlice (l : List Char) : List Char :=
  (l.drop 1).dropLast

/-- `value_str.replace(',', '').replace(' ', '').replace('\xa0', '')` from
`script.py`: remove every comma, ordinary space and non-breaking space. -/
def cleanSepScript (l : List Char) : List Char :=
  l.filter (fun c => !(c = ',' || c = ' ' || c = '\xA0'))

/-- `value_str.replace(',', '').replace(' ', '')` from
`standard_schema_extractor.py`, `page8_extractor.py` and
`pymupdf_extractor.py`: remove commas and ordinary spaces only. -/
def cleanSepStd (l : List Char) : List Char :=
  l.filter (fun c => !(c = ',' || c = ' '))

/-- Exponent part of a decimal literal: optional sign then at least one
digit, nothing else. -/
def parseExpPart (l : List Char) : Option ℤ :=
  let sg : ℤ := match l with
    | '-' :: _ => -1
    | _ => 1
  let l2 : List Char := match l with
    | '-' :: r => r
    | '+' :: r => r
    | _ => l
  let ds := l2.takeWhile Char.isDigit
  if ds.isEmpty || !(l2.dropWhile Char.isDigit).isEmpty then none
  else some (sg * (digitsVal ds : ℤ))

/-- Rational value of a parsed decimal literal given sign, integer part,
fraction digits, fraction length and exponent. -/
def ratOfParts (sgnz : ℤ) (ip fp : ℕ) (fplen : ℕ) (ex : ℤ) : ℚ :=
  ((sgnz : ℚ) * ((ip : ℚ) + (fp : ℚ) / 10 ^ fplen)) * 10 ^ ex

/-- Model of Python `float(s)` on finite decimal literals: optional sign,
then digits with an optional point and an optional exponent.  Returns the
exact rational value, or `none` when `float()` would raise `ValueError`
(see the module comment for the deliberate exclusions). -/
def parseFloatChars (l : List Char) : Option ℚ :=
  let sgnz : ℤ := match l with
    | '-' :: _ => -1
    | _ => 1
  let l1 : List Char := match l with
    | '-' :: r => r
    | '+' :: r => r
    | _ => l
  let ip := l1.takeWhile Char.isDigit
  match l1.dropWhile Char.isDigit with
  | [] => if ip.isEmpty then none else some ((sgnz * (digitsVal ip : ℤ) : ℤ) : ℚ)
  | '.' :: r2 =>
    let fp := r2.takeWhile Char.isDigit
    if ip.isEmpty && fp.isEmpty then none
    else
      match r2.dropWhile Char.isDigit with
      | [] =>
        if fp.isEmpty then some ((sgnz * (digitsVal ip : ℤ) : ℤ) : ℚ)
        else some (ratOfParts sgnz (digitsVal ip) (digitsVal fp) fp.length 0)
      | c :: r4 =>
        if c = 'e' || c = 'E' then
          (parseExpPart r4).map (ratOfParts sgnz (digitsVal ip) (digitsVal fp) fp.length)
        else none
  | c :: r4 =>
    if c = 'e' || c = 'E' then
      if ip.isEmpty then none
      else (parseExpPart r4).map (ratOfParts sgnz (digitsVal ip) 0 0)
    else none

/-!
## Numeric canonicalizers

`script.py` `_convert_to_numeric` (lines 212-260).  The string handling is
split into `scriptCore`, which receives the already-stripped text
(`value_str = str(value).strip()`); every branch below mirrors one branch of
the Python function.
-/

/-- Branches of `script.py::_convert_to_numeric` on the stripped text `vl`:
empty or any-case `nan` → `None`; a lone dash or en-dash → `None`; a
parenthesized number → its negation; otherwise try a plain parse.  In the
plain-parse success branch the Python code executes
`print("fixed values are " + num)`, which raises `TypeError`
(str + float); the bare `except:` swallows it and returns `value_str`, so
success and failure both return the original stripped text. -/
def scriptCore (vl : List Char) : Value :=
  if vl.isEmpty || lowerChars vl = "nan".toList then .null
  else if vl = ['-'] || vl = ['–'] then .null
  else if firstIs '(' vl && lastIs ')' vl then
    match parseFloatChars (cleanSepScript (innerSlice vl)) with
    | some q => .num (-q)
    | none => .text vl.asString
  else
    match parseFloatChars (cleanSepScript vl) with
    | some _ => .text vl.asString
    | none => .text vl.asString

/-- `script.py::_convert_to_numeric` (lines 212-260): `None` and numeric
values are returned unchanged (`isinstance` checks); strings are stripped
and handed to `scriptCore`. -/
def convertToNumeric_script : Value → Value
  | .null => .null
  | .num q => .num q
  | .text s => scriptCore (stripChars s.toList)

/-- Branches of `standard_schema_extractor.py::_convert_to_numeric`
(lines 157-184) on the stripped text: only empty and lowercase `nan` are
sentinels (the check is `value_str == "nan"`, case-sensitive, and there is
no dash check in this file); a parenthesized number → its negation (a
float); a plain parse success returns `clean_value`, the separator-stripped
STRING, not the parsed number. -/
def stdCore (vl : List Char) : Value :=
  if vl.isEmpty || vl = "nan".toList then .null
  else if firstIs '(' vl && lastIs ')' vl then
    match parseFloatChars (cleanSepStd (innerSlice vl)) with
    | some q => .num (-q)
    | none => .text vl.asString
  else
    match parseFloatChars (cleanSepStd vl) with
    | some _ => .text (cleanSepStd vl).asString
    | none => .text vl.asString

/-- Python `str(f)` for a float of integral value: the integer then `.0`.
Non-integral floats never reach a claim; their rendering is approximated by
`toString` on the rational (see module comment). -/
def pyFloatRepr (q : ℚ) : String :=
  if q.den = 1 then toString q.num ++ ".0" else toString q

/-- `standard_schema_extractor.py::_convert_to_numeric` (lines 157-184):
`None` is returned unchanged; there is NO `isinstance(value, (int, float))`
check in this file, so a float input is rendered by `str(value)` and then
processed as text like any other string. -/
def convertToNumeric_std : Value → Value
  | .null => .null
  | .num q => stdCore (stripChars (pyFloatRepr q).toList)
  | .text s => stdCore (stripChars s.toList)

/-- `page8_extractor.py::_try_parse_number` (lines 80-101).  `None` is
returned unchanged by the `not value` guard; so is the empty string (the
guard fires before any stripping, returning the value itself).  Then the
stripped text: empty or `"-"` → `None`; a parenthesized number →
`float(...) * -1`; a plain number → its float; on `ValueError` the stripped
text is returned. -/
def tryParseNumber : Option String → Value
  | none => .null
  | some s =>
    if s = "" then .text ""
    else
      let vl := stripChars s.toList
      if vl.isEmpty || vl = ['-'] then .null
      else if firstIs '(' vl && lastIs ')' vl then
        match parseFloatChars (cleanSepStd (innerSlice vl)) with
        | some q => .num (-q)
        | none => .text vl.asString
      else
        match parseFloatChars (cleanSepStd vl) with
        | some q => .num q
        | none => .text vl.asString

/-- Removal of `\n` and `\r` as in `pymupdf_extractor.py` line 76. -/
def removeNewlines (l : List Char) : List Char :=
  l.filter (fun c => !(c = '\n' || c = '\r'))

/-- `pymupdf_extractor.py::_parse_number` (lines 71-81): `None`, the empty
string (falsy) and the exact raw string `"-"` → `None`; then the text is
stripped, newlines removed, and parsed with the parenthesis convention; on
failure the stripped newline-free text is returned (the `except` runs after
`text` was reassigned). -/
def parseNumberPymupdf : Option String → Value
  | none => .null
  | some s =>
    if s = "" || s = "-" then .null
    else
      let vl := removeNewlines (stripChars s.toList)
      if firstIs '(' vl && lastIs ')' vl then
        match parseFloatChars (cleanSepStd (innerSlice vl)) with
        | some q => .num (-q)
        | none => .text vl.asString
      else
        match parseFloatChars (cleanSepStd vl) with
        | some q => .num q
        | none => .text vl.asString


/-!
## Rectangularizer and DataFrame cleaning

A raw table from the table source is a `List (List (Option String))`:
rows of optional text cells.
-/

/-- Python truthiness of an optional string cell: `None` and `""` are
falsy. -/
def truthyCell (c : Option String) : Bool :=
  !(c.getD "").isEmpty

/-- `any(cell for cell in row)` from `_convert_table_to_dataframe`. -/
def rowNonEmpty (row : List (Option String)) : Bool :=
  row.any truthyCell

/-- The in-place padding loop `while len(row) < max_cols: row.append("")`:
the row after the loop. -/
def padInPlace (w : ℕ) (row : List (Option String)) : List (Option String) :=
  row ++ List.replicate (w - row.length) (some "")

/-- `row` padded then sliced to `max_cols` (`row[:max_cols]`, a copy). -/
def padTruncate (w : ℕ) (row : List (Option String)) : List (Option String) :=
  (padInPlace w row).take w

/-- `standard_schema_extractor.py::_convert_table_to_dataframe`
(lines 114-140; `script.py` lines 137-163 are identical).  The first
component is the list of padded rows handed to `pd.DataFrame` (or `none`
when the function returns `None`); the second component is the post-state
of the caller's `table` argument, recording the in-place `row.append("")`
mutations (rows filtered out as entirely empty are never padded, and
truncation slices a copy and does not shrink the caller's rows). -/
def convertTableToDataframe (table : List (List (Option String))) :
    Option (List (List (Option String))) × List (List (Option String)) :=
  match table with
  | [] => (none, [])
  | [headers] => (none, [headers])
  | headers :: dataRows =>
    let kept := dataRows.filter rowNonEmpty
    if kept.isEmpty then (none, headers :: dataRows)
    else
      (some (kept.map (padTruncate headers.length)),
       headers :: dataRows.map (fun r =>
         if rowNonEmpty r then padInPlace headers.length r else r))

/-- One cell of `_clean_dataframe`'s strip step: Python strips only `str`
cells, `None` stays `None`. -/
def stripCell (c : Option String) : Option String :=
  c.map (fun s => (stripChars s.toList).asString)

/-- One cell of `df.replace('', None)`. -/
def replaceEmptyCell (c : Option String) : Option String :=
  match c with
  | some s => if s.isEmpty then none else some s
  | none => none

/-- `standard_schema_extractor.py::_clean_dataframe` (lines 142-149) on a
DataFrame of width `w`, modelled as its list of rows: drop rows whose cells
are all `None` (`dropna(how='all')`), drop columns whose cells are all
`None` in the remaining rows (`dropna(axis=1, how='all')`), strip string
cells, and turn `""` into `None`. -/
def cleanDataframe (w : ℕ) (rows : List (List (Option String))) :
    List (List (Option String)) :=
  let rows1 := rows.filter (fun r => r.any Option.isSome)
  let keptCols := (List.range w).filter
    (fun j => rows1.any (fun r => ((r.get? j).getD none).isSome))
  rows1.map (fun r =>
    (keptCols.map (fun j => (r.get? j).getD none)).map
      (fun c => replaceEmptyCell (stripCell c)))

/-- The table stage of the pipeline: rectangularize a raw table and clean
the resulting DataFrame (header width `W = len(table[0])`). -/
def tablePipeline (table : List (List (Option String))) :
    Option (List (List (Option String))) :=
  (convertTableToDataframe table).1.map (cleanDataframe (table.headD []).length)

/-- One cell of `page8_extractor.py::extract_page_8`'s row cleaning
(lines 51-56): `None` → `""`, a string → its stripped form (Python truthiness
makes `str(h).strip() if h else ""` for headers behave identically). -/
def page8CleanCell : Option String → String
  | none => ""
  | some s => (stripChars s.toList).asString

/-- One data row of `page8_extractor.py::extract_page_8` (lines 49-65):
clean every cell, right-pad with `""` to the header count, then trim the
excess columns.  There is no empty-row filter in this function. -/
def page8Row (w : ℕ) (row : List (Option String)) : List String :=
  ((row.map page8CleanCell) ++ List.replicate (w - row.length) "").take w

/-- `page8_extractor.py::extract_page_8` table processing (lines 44-67):
headers from the first row, all later rows cleaned and rectangularized. -/
def page8Extract (table : List (List (Option String))) :
    Option (List String × List (List String)) :=
  match table with
  | [] => none
  | headers :: rest =>
    some (headers.map page8CleanCell, rest.map (page8Row headers.length))

/-!
## Row classifier
-/

/-- Semantic role of a table row. -/
inductive RowRole where
  | header
  | ordinary
  | emphasis
deriving DecidableEq

/-- The keyword list of `page8_extractor.py::_is_total_or_subtotal`
(line 77), the domain-default Emphasis keyword set. -/
def emphasisKeywords : List String :=
  ["balance", "comprehensive", "payment", "contribution", "sale"]

/-- Contiguous-substring test (`keyword in text` in Python). -/
def strContainsSub (s pat : String) : Bool :=
  decide (pat.toList <:+: s.toList)

/-- `page8_extractor.py::_is_total_or_subtotal` (lines 72-78): falsy cell →
`False`; otherwise look for any keyword inside the lower-cased text. -/
def isTotalOrSubtotal (cellValue : String) : Bool :=
  if cellValue = "" then false
  else emphasisKeywords.any
    (fun k => strContainsSub (lowerChars cellValue.toList).asString k)

/-- The row classifier: row 0 of a table is the header row (both extractors
write `table[0]` as the header); any other row is Emphasis exactly when
`_is_total_or_subtotal` accepts its first cell (`page8_extractor.py`
lines 151 and 166 apply it to `row_data[0]`), else Ordinary. -/
def classifyRow (pos : ℕ) (row : List String) : RowRole :=
  if pos = 0 then .header
  else if isTotalOrSubtotal (row.headD "") then .emphasis
  else .ordinary

/-!
## Schema mapper
-/

/-- Zero-padded three-digit rendering, Python `f"{n:03d}"` for small `n`. -/
def pad3 (n : ℕ) : String :=
  let s := toString n
  if s.length < 3 then (List.replicate (3 - s.length) '0').asString ++ s else s

/-- Python `str(x)` on a DataFrame cell value. -/
def pyStr : Value → String
  | .null => "None"
  | .num q => pyFloatRepr q
  | .text s => s

/-- Python negative indexing `row[-k]` for `1 ≤ k ≤ len(row)`. -/
def negIdx (row : List Value) (k : ℕ) : Value :=
  (row.get? (row.length - k)).getD .null

/-- The fields of one output record of `transform_to_standard_schema` that
carry row-dependent data (`script.py` lines 272-329;
`standard_schema_extractor.py` lines 204-302 are behaviourally identical).
The remaining schema columns are run-level constants or timestamps
(`country`, `unit`, dates, ...) and are omitted; no claim mentions them. -/
structure CanonicalRecord where
  primary_key : ℕ
  table_id : String
  dim_1_id : Option String
  dim_1_name : Option String
  dim_2_name : Option String
  dim_3_name : Option String
  dim_4_name : Option String
  y2022 : Value
  y2023 : Value
  y2024 : Value
deriving DecidableEq

/-- One record of `transform_to_standard_schema` for the row at position
`rIdx` of table `tIdx` with primary key `pk`: dimension names from the
leading cells (`str(extracted_cols[i-1])` when `len >= i`), and the year
columns from the trailing cells guarded by `len(extracted_cols) >= 4/5/6`
(`script.py` lines 317-322). -/
def mkRecord (tIdx rIdx pk : ℕ) (row : List Value) : CanonicalRecord :=
  { primary_key := pk
  , table_id := "TABLE_" ++ pad3 (tIdx + 1)
  , dim_1_id := if 1 ≤ row.length
      then some ("DIM1_" ++ toString tIdx ++ "_" ++ toString rIdx) else none
  , dim_1_name := if 1 ≤ row.length
      then some (pyStr ((row.get? 0).getD .null)) else none
  , dim_2_name := if 2 ≤ row.length
      then some (pyStr ((row.get? 1).getD .null)) else none
  , dim_3_name := if 3 ≤ row.length
      then some (pyStr ((row.get? 2).getD .null)) else none
  , dim_4_name := if 4 ≤ row.length
      then some (pyStr ((row.get? 3).getD .null)) else none
  , y2022 := if 6 ≤ row.length then negIdx row 3 else .null
  , y2023 := if 5 ≤ row.length then negIdx row 2 else .null
  , y2024 := if 4 ≤ row.length then negIdx row 1 else .null }

/-- The inner row loop of `transform_to_standard_schema`: one record per
DataFrame row, primary key incremented per record. -/
def transformRows (tIdx rIdx pk : ℕ) : List (List Value) → List CanonicalRecord
  | [] => []
  | row :: rest => mkRecord tIdx rIdx pk row :: transformRows tIdx (rIdx + 1) (pk + 1) rest

/-- The outer table loop of `transform_to_standard_schema`: tables in
order, the primary-key counter carried across table boundaries. -/
def transformTables (tIdx pk : ℕ) : List (List (List Value)) → List CanonicalRecord
  | [] => []
  | t :: ts => transformRows tIdx 0 pk t ++ transformTables (tIdx + 1) (pk + t.length) ts

/-- `transform_to_standard_schema` (`script.py` lines 262-333): all
extracted tables mapped to canonical records, `primary_key_counter`
starting at 1. -/
def transform_to_standard_schema (tables : List (List (List Value))) : List CanonicalRecord :=
  transformTables 0 1 tables


/-!
## Supporting lemmas
-/

lemma dropWhile_self {α : Type} (p : α → Bool) :
    ∀ l : List α, (l.dropWhile p).dropWhile p = l.dropWhile p
  | [] => rfl
  | a :: l => by
    by_cases h : p a = true
    · simp only [List.dropWhile_cons, h, if_true]
      exact dropWhile_self p l
    · simp [List.dropWhile_cons, h]

lemma head_not_of_dropWhile_eq_self {α : Type} (p : α → Bool) (l : List α)
    (hl : l.dropWhile p = l) : ∀ a, l.head? = some a → p a = false := by
  intro a ha
  cases l with
  | nil => simp at ha
  | cons b t =>
    have hba : b = a := by simpa using ha
    subst hba
    by_contra hpa
    have hpa2 : p b = true := by simpa using hpa
    rw [List.dropWhile_cons, if_pos hpa2] at hl
    have hle := List.Sublist.length_le (List.dropWhile_sublist (l := t) p)
    rw [hl] at hle
    simp at hle

lemma dropWhile_eq_self_of_head {α : Type} (p : α → Bool) (l : List α)
    (h : ∀ a, l.head? = some a → p a = false) : l.dropWhile p = l := by
  cases l with
  | nil => rfl
  | cons b t => simp [List.dropWhile_cons, h b rfl]

lemma stripChars_idem (l : List Char) : stripChars (stripChars l) = stripChars l := by
  unfold stripChars
  set p := Char.isWhitespace with hp
  set x := l.dropWhile p with hx
  set y := x.reverse.dropWhile p with hy
  have hyy : y.dropWhile p = y := by rw [hy]; exact dropWhile_self p x.reverse
  have hx2 : x = y.reverse ++ (x.reverse.takeWhile p).reverse := by
    have h3 := List.takeWhile_append_dropWhile p x.reverse
    calc x = x.reverse.reverse := (List.reverse_reverse x).symm
    _ = (x.reverse.takeWhile p ++ y).reverse := by rw [hy, h3]
    _ = y.reverse ++ (x.reverse.takeWhile p).reverse := by rw [List.reverse_append]
  have h1 : y.reverse.dropWhile p = y.reverse := by
    apply dropWhile_eq_self_of_head
    intro a ha
    have hxx : x.dropWhile p = x := by rw [hx]; exact dropWhile_self p l
    apply head_not_of_dropWhile_eq_self p x hxx a
    rw [hx2, List.head?_append, ha]
    rfl
  rw [h1, List.reverse_reverse, hyy]

lemma asString_toList (l : List Char) : (List.asString l).toList = l := rfl

lemma scriptCore_shape (vl : List Char) :
    scriptCore vl = .null ∨ (∃ q, scriptCore vl = .num q) ∨
      scriptCore vl = .text vl.asString := by
  unfold scriptCore
  split
  · exact Or.inl rfl
  · split
    · exact Or.inl rfl
    · split
      · split
        · exact Or.inr (Or.inl ⟨_, rfl⟩)
        · exact Or.inr (Or.inr rfl)
      · split
        · exact Or.inr (Or.inr rfl)
        · exact Or.inr (Or.inr rfl)

/-!
## Claims about the numeric canonicalizer
-/

/-- Claim C2 (code_bug evaluation).  The parse path of the canonicalizers at
the spec's own example `"1 234"`: `script.py` returns the original trimmed
text (the debug `print("fixed values are " + num)` raises `TypeError`,
swallowed by the bare `except:`), and `standard_schema_extractor.py` returns
the separator-stripped string `"1234"`, not `Number(1234)`.  The
parenthesized path, by contrast, does return numbers. -/
theorem c2_numeric_parse_eval :
    convertToNumeric_script (.text "1 234") = .text "1 234" ∧
    convertToNumeric_std (.text "1 234") = .text "1234" ∧
    convertToNumeric_script (.text "(1,234)") = .num (-1234) ∧
    convertToNumeric_std (.text "(1,234)") = .num (-1234) := by decide

/-- Claim C9 (confirmed).  No canonicalizer checks that a parenthesized
interior is non-negative: in all four parsers `"(-5)"` yields the negation
of the parsed interior, the positive `Number(5.0)`. -/
theorem c9_paren_minus_interior :
    convertToNumeric_script (.text "(-5)") = .num 5 ∧
    convertToNumeric_std (.text "(-5)") = .num 5 ∧
    tryParseNumber (some "(-5)") = .num 5 ∧
    parseNumberPymupdf (some "(-5)") = .num 5 := by decide

/-- Claim C4 (counterexample).  In `standard_schema_extractor.py` there is
no dash rule: a lone dash (and a lone en-dash) canonicalizes to the text
itself, not to `Null` as the claim states. -/
theorem c4_counterexample :
    convertToNumeric_std (.text "-") = .text "-" ∧
    convertToNumeric_std (.text "–") = .text "–" ∧
    Value.text "-" ≠ Value.null := by decide

/-- Claim C4 (amended).  The sentinel rules hold as stated for `script.py`:
`None`, all-whitespace text, any-case `nan`, a lone dash and a lone en-dash
all map to `Null` before any parsing.  In `standard_schema_extractor.py`
only `None`, empty text and lowercase `nan` are sentinels: there is no dash
rule and the `nan` check is case-sensitive (`"NAN"` stays text). -/
theorem c4_sentinel_rules :
    (convertToNumeric_script .null = .null) ∧
    (∀ s : String, stripChars s.toList = [] → convertToNumeric_script (.text s) = .null) ∧
    (∀ s : String, lowerChars (stripChars s.toList) = "nan".toList →
      convertToNumeric_script (.text s) = .null) ∧
    (convertToNumeric_script (.text "-") = .null) ∧
    (convertToNumeric_script (.text "–") = .null) ∧
    (convertToNumeric_std .null = .null) ∧
    (∀ s : String, stripChars s.toList = [] → convertToNumeric_std (.text s) = .null) ∧
    (convertToNumeric_std (.text "NAN") = .text "NAN") := by
  refine ⟨rfl, ?_, ?_, by decide, by decide, rfl, ?_, by decide⟩
  · intro s h
    show scriptCore (stripChars s.toList) = .null
    rw [h]
    rfl
  · intro s h
    show scriptCore (stripChars s.toList) = .null
    unfold scriptCore
    rw [h]
    simp
  · intro s h
    show stdCore (stripChars s.toList) = .null
    rw [h]
    rfl

/-- Claim C4 (witness): the amended sentinel rules applied at concrete
inputs: whitespace-only text and `" NaN "` for the `script.py` rules, and
whitespace-only text for the `standard_schema_extractor.py` rule. -/
theorem c4_sentinel_rules_witness :
    convertToNumeric_script (.text "   ") = .null ∧
    convertToNumeric_script (.text " NaN ") = .null ∧
    convertToNumeric_std (.text "   ") = .null :=
  ⟨c4_sentinel_rules.2.1 "   " (by decide),
   c4_sentinel_rules.2.2.1 " NaN " (by decide),
   c4_sentinel_rules.2.2.2.2.2.2.1 "   " (by decide)⟩

/-- Claim C3 (counterexample).  The `standard_schema_extractor.py`
canonicalizer is not idempotent: `"(5)"` canonicalizes to `Number(-5)`, but
because this file has no numeric-type check, re-canonicalizing renders the
float to `str(-5.0) = "-5.0"` and then returns the cleaned string — a Text,
not the original Number. -/
theorem c3_counterexample :
    convertToNumeric_std (.text "(5)") = .num (-5) ∧
    convertToNumeric_std (convertToNumeric_std (.text "(5)")) = .text "-5.0" ∧
    convertToNumeric_std (convertToNumeric_std (.text "(5)")) ≠
      convertToNumeric_std (.text "(5)") := by decide

/-- Claim C3 (amended).  The `script.py` canonicalizer is idempotent on
every input: `Null` and `Number` values are returned unchanged by its
`isinstance` checks, and text output is always the stripped input text,
which is a fixed point of the function. -/
theorem c3_script_idempotent (x : Value) :
    convertToNumeric_script (convertToNumeric_script x) = convertToNumeric_script x := by
  cases x with
  | null => rfl
  | num q => rfl
  | text s =>
    show convertToNumeric_script (scriptCore (stripChars s.toList)) =
      scriptCore (stripChars s.toList)
    rcases scriptCore_shape (stripChars s.toList) with h | ⟨q, h⟩ | h <;> rw [h]
    · rfl
    · rfl
    · show scriptCore (stripChars ((stripChars s.toList).asString).toList) = _
      rw [asString_toList, stripChars_idem, h]

/-!
## Claims about the row classifier
-/

lemma isTotalOrSubtotal_iff (s : String) :
    isTotalOrSubtotal s = true ↔
      ∃ k ∈ emphasisKeywords, k.toList <:+: lowerChars s.toList := by
  unfold isTotalOrSubtotal
  split
  · rename_i hs
    subst hs
    constructor
    · intro h
      simp at h
    · rintro ⟨k, hk, hinf⟩
      have h0 : lowerChars ("" : String).toList = ([] : List Char) := rfl
      rw [h0] at hinf
      have hknil : k.toList = [] := List.infix_nil.mp hinf
      have hk0 : k = "" := by
        cases k with
        | mk d =>
          simp [String.toList] at hknil
          simp [hknil]
      rw [hk0] at hk
      exact absurd hk (by decide)
  · rw [List.any_eq_true]
    constructor
    · rintro ⟨k, hk, hsk⟩
      exact ⟨k, hk, by simpa [strContainsSub, asString_toList] using hsk⟩
    · rintro ⟨k, hk, hinf⟩
      exact ⟨k, hk, by simpa [strContainsSub, asString_toList] using hinf⟩

/-- Claim C8 (confirmed).  The row at table position 0 is always `Header`;
any other row is `Emphasis` exactly when its first cell's lower-cased text
contains one of the default keywords, and `Ordinary` otherwise; and the
role of a non-header row depends only on the first cell's text — identical
first cells give identical roles regardless of position or other cells. -/
theorem c8_row_classifier :
    (∀ row : List String, classifyRow 0 row = .header) ∧
    (∀ (i : ℕ) (row : List String), i ≠ 0 →
      (classifyRow i row = .emphasis ↔
        ∃ k ∈ emphasisKeywords, k.toList <:+: lowerChars (row.headD "").toList)) ∧
    (∀ (i j : ℕ) (r1 r2 : List String), i ≠ 0 → j ≠ 0 →
      r1.headD "" = r2.headD "" → classifyRow i r1 = classifyRow j r2) := by
  refine ⟨fun row => rfl, ?_, ?_⟩
  · intro i row hi
    unfold classifyRow
    rw [if_neg hi]
    by_cases h : isTotalOrSubtotal (row.headD "") = true
    · rw [if_pos h]
      exact ⟨fun _ => (isTotalOrSubtotal_iff _).mp h, fun _ => rfl⟩
    · rw [if_neg h]
      constructor
      · intro habs
        exact absurd habs (by decide)
      · intro hex
        exact absurd ((isTotalOrSubtotal_iff _).mpr hex) h
  · intro i j r1 r2 hi hj h12
    unfold classifyRow
    rw [if_neg hi, if_neg hj, h12]

/-- Claim C8 (witness): the classifier at concrete inputs — position 0 is a
header, the spec's scenario-2 row is Emphasis via the keyword `balance`,
and two rows sharing the first cell `"Total equity"` get the same role at
different positions. -/
theorem c8_row_classifier_witness :
    classifyRow 0 ["Item", "2023", "2024"] = .header ∧
    classifyRow 1 ["Balance as at 31 December 2023", "1,000"] = .emphasis ∧
    classifyRow 3 ["Total equity", "7"] = classifyRow 9 ["Total equity", "42", "5"] := by
  refine ⟨c8_row_classifier.1 _, ?_, c8_row_classifier.2.2 3 9 _ _ (by decide) (by decide) rfl⟩
  exact (c8_row_classifier.2.1 1 _ (by decide)).mpr ⟨"balance", by decide, by decide⟩

/-!
## Claims about the rectangularizer and the cleaning stage
-/

lemma padTruncate_length (w : ℕ) (row : List (Option String)) :
    (padTruncate w row).length = w := by
  simp only [padTruncate, padInPlace, List.length_take, List.length_append,
    List.length_replicate]
  omega

lemma padTruncate_get_lt (w : ℕ) (row : List (Option String)) (j : ℕ)
    (hj : j < row.length) (hjw : j < w) :
    (padTruncate w row).get? j = row.get? j := by
  unfold padTruncate padInPlace
  rw [List.get?_take hjw, List.get?_append hj]

lemma padTruncate_get_pad (w : ℕ) (row : List (Option String)) (j : ℕ)
    (hj : row.length ≤ j) (hjw : j < w) :
    (padTruncate w row).get? j = some (some "") := by
  unfold padTruncate padInPlace
  rw [List.get?_take hjw, List.get?_append_right hj, List.get?_eq_getElem?,
    List.getElem?_replicate, if_pos (by omega)]

lemma page8Row_length (w : ℕ) (row : List (Option String)) :
    (page8Row w row).length = w := by
  simp only [page8Row, List.length_take, List.length_append, List.length_map,
    List.length_replicate]
  omega

lemma page8Row_get_lt (w : ℕ) (row : List (Option String)) (j : ℕ)
    (hj : j < row.length) (hjw : j < w) :
    (page8Row w row).get? j = (row.get? j).map page8CleanCell := by
  unfold page8Row
  rw [List.get?_take hjw, List.get?_append (by simpa using hj), List.get?_map]

lemma page8Row_get_pad (w : ℕ) (row : List (Option String)) (j : ℕ)
    (hj : row.length ≤ j) (hjw : j < w) :
    (page8Row w row).get? j = some "" := by
  unfold page8Row
  rw [List.get?_take hjw, List.get?_append_right (by simpa using hj),
    List.get?_eq_getElem?, List.getElem?_replicate, if_pos (by simp; omega)]

/-- Claim C6 (counterexample).  The `standard_schema_extractor.py`
rectangularizer does NOT replace absent cells with empty text: the spec's
scenario-3 row keeps its interior `None` (replacement to null happens only
later, in `_clean_dataframe`). -/
theorem c6_counterexample :
    (convertTableToDataframe
      [[some "Item", some "2023", some "2024"], [some "Total", none, some "200"]]).1 =
      some [[some "Total", none, some "200"]] ∧
    (convertTableToDataframe
      [[some "Item", some "2023", some "2024"], [some "Total", none, some "200"]]).1 ≠
      some [[some "Total", some "", some "200"]] := by decide

/-- Claim C6 (amended).  Shape contract of the two rectangularizers.  In
`standard_schema_extractor.py` (`padTruncate`): output rows have length
exactly `W`, the leading `min(L, W)` cells are preserved verbatim (absent
cells stay absent), the remainder is `""`-padding when `L < W` and excess
cells are dropped when `L > W`, and rows that are entirely empty are not
emitted (they are filtered before padding).  In `page8_extractor.py`
(`page8Row`): same shape, with absent cells replaced by empty text and
present cells trimmed — but there is no empty-row filter, so entirely
empty rows ARE emitted. -/
theorem c6_rectangularizer :
    (∀ (w : ℕ) (row : List (Option String)), (padTruncate w row).length = w) ∧
    (∀ (w : ℕ) (row : List (Option String)) (j : ℕ), j < row.length → j < w →
      (padTruncate w row).get? j = row.get? j) ∧
    (∀ (w : ℕ) (row : List (Option String)) (j : ℕ), row.length ≤ j → j < w →
      (padTruncate w row).get? j = some (some "")) ∧
    (∀ (headers : List (Option String)) (dataRows out : List (List (Option String))),
      (convertTableToDataframe (headers :: dataRows)).1 = some out →
      out.length = (dataRows.filter rowNonEmpty).length ∧
      ∀ r ∈ out, r.length = headers.length) ∧
    (∀ (w : ℕ) (row : List (Option String)), (page8Row w row).length = w) ∧
    (∀ (w : ℕ) (row : List (Option String)) (j : ℕ), j < row.length → j < w →
      (page8Row w row).get? j = (row.get? j).map page8CleanCell) ∧
    (∀ (w : ℕ) (row : List (Option String)) (j : ℕ), row.length ≤ j → j < w →
      (page8Row w row).get? j = some "") ∧
    (∀ (headers : List (Option String)) (dataRows : List (List (Option String))),
      ∃ hs rows, page8Extract (headers :: dataRows) = some (hs, rows) ∧
        rows.length = dataRows.length) := by
  refine ⟨padTruncate_length, padTruncate_get_lt, padTruncate_get_pad, ?_,
    page8Row_length, page8Row_get_lt, page8Row_get_pad, ?_⟩
  · intro headers dataRows out hout
    cases dataRows with
    | nil => simp [convertTableToDataframe] at hout
    | cons a rest =>
      by_cases hk : (List.filter rowNonEmpty (a :: rest)).isEmpty = true
      · simp [convertTableToDataframe, hk] at hout
      · simp [convertTableToDataframe, hk] at hout
        subst hout
        refine ⟨by simp, ?_⟩
        intro r hr
        obtain ⟨r0, _, rfl⟩ := List.mem_map.mp hr
        exact padTruncate_length _ _
  · intro headers dataRows
    exact ⟨_, _, rfl, by simp [List.length_map]⟩

/-- Claim C6 (witness): the amended contract applied at concrete inputs —
width, preserved cell, padding cell for both rectangularizers, the emission
count of `standard_schema_extractor.py` on a table with one empty row, and
the emission count of `page8_extractor.py` on the same rows. -/
theorem c6_rectangularizer_witness :
    (padTruncate 3 [some "Total", none]).length = 3 ∧
    (padTruncate 3 [some "Total", none]).get? 1 = some none ∧
    (padTruncate 3 [some "Total", none]).get? 2 = some (some "") ∧
    ((convertTableToDataframe [[some "A", some "B"], [some "x"], [none]]).1 =
        some [[some "x", some ""]] →
      [[some "x", some ""]].length =
        ([[some "x"], [none]].filter rowNonEmpty).length) ∧
    (page8Row 3 [some " Total ", none]).get? 0 =
      (([some " Total ", none] : List (Option String)).get? 0).map page8CleanCell ∧
    (page8Row 3 [some " Total ", none]).get? 2 = some "" ∧
    ∃ hs rows, page8Extract [[some "A"], [none]] = some (hs, rows) ∧
      rows.length = ([[none]] : List (List (Option String))).length := by
  refine ⟨c6_rectangularizer.1 3 _, c6_rectangularizer.2.1 3 _ 1 (by decide) (by decide),
    c6_rectangularizer.2.2.1 3 _ 2 (by decide) (by decide), ?_,
    c6_rectangularizer.2.2.2.2.2.1 3 _ 0 (by decide) (by decide),
    c6_rectangularizer.2.2.2.2.2.2.1 3 _ 2 (by decide) (by decide),
    c6_rectangularizer.2.2.2.2.2.2.2 [some "A"] [[none]]⟩
  intro h
  exact (c6_rectangularizer.2.2.2.1 [some "A", some "B"] [[some "x"], [none]] _ h).1

/-- Claim C5 (counterexample).  The cleaning stage DOES change row widths:
`dropna(axis=1, how='all')` removes the all-`None` column of this 2-wide
table, so the surviving row has length 1, not the header width 2. -/
theorem c5_counterexample :
    tablePipeline [[some "A", some "B"], [some "x", none]] = some [[some "x"]] ∧
    (([some "x"] : List (Option String)).length ≠
      ([some "A", some "B"] : List (Option String)).length) := by decide

/-- Claim C5 (amended).  Rows have length exactly `W` immediately after
rectangularization (see `c6_rectangularizer`); the cleaning stage may then
drop columns that are entirely null, after which every surviving row of the
table has one common width `wk ≤ W`; no stage after cleaning changes a
row's cell count. -/
theorem c5_row_width (table out : List (List (Option String)))
    (hout : tablePipeline table = some out) :
    ∃ wk, wk ≤ (table.headD []).length ∧ ∀ r ∈ out, r.length = wk := by
  unfold tablePipeline at hout
  cases hconv : (convertTableToDataframe table).1 with
  | none => rw [hconv] at hout; simp at hout
  | some rows =>
    rw [hconv] at hout
    simp only [Option.map_some'] at hout
    have hclean : cleanDataframe (table.headD []).length rows = out :=
      Option.some.inj hout
    refine ⟨((List.range (table.headD []).length).filter
      (fun j => (rows.filter (fun r => r.any Option.isSome)).any
        (fun r => ((r.get? j).getD none).isSome))).length, ?_, ?_⟩
    · calc ((List.range (table.headD []).length).filter _).length
          ≤ (List.range (table.headD []).length).length :=
            List.length_filter_le _ _
      _ = (table.headD []).length := List.length_range _
    · intro r hr
      rw [← hclean] at hr
      simp only [cleanDataframe] at hr
      obtain ⟨r0, _, rfl⟩ := List.mem_map.mp hr
      simp [List.length_map]

/-- Claim C5 (witness): the amended width bound applied at the concrete
table of `c5_counterexample` — the cleaned rows share width `wk = 1 ≤ 2`. -/
theorem c5_row_width_witness :
    ∃ wk, wk ≤ (([[some "A", some "B"], [some "x", none]] :
        List (List (Option String))).headD []).length ∧
      ∀ r ∈ ([[some "x"]] : List (List (Option String))), r.length = wk :=
  c5_row_width [[some "A", some "B"], [some "x", none]] [[some "x"]] (by decide)

/-- Claim C10 (counterexample).  Not every short input row is extended in
place: a row that is entirely empty (here `[None]`, shorter than the header
width 2) is filtered out before the padding loop and remains untouched in
the caller's table. -/
theorem c10_counterexample :
    (convertTableToDataframe [[some "A", some "B"], [some "x"], [none]]).2 =
      [[some "A", some "B"], [some "x", some ""], [none]] ∧
    ([none] : List (Option String)).length < 2 := by decide

/-- Claim C10 (amended).  The rectangularizer mutates its input: after the
call, every input data row that survives the emptiness filter has been
extended in place with empty-text cells to the header width (its original
cells preserved as a prefix, and rows already at least `W` long are
unchanged — truncation slices a copy); rows filtered out as entirely empty,
and the header row, are left untouched. -/
theorem c10_in_place_padding (headers : List (Option String))
    (dataRows : List (List (Option String))) (i : ℕ) (r : List (Option String))
    (hir : dataRows.get? i = some r) :
    (convertTableToDataframe (headers :: dataRows)).2.get? 0 = some headers ∧
    ∃ rr, (convertTableToDataframe (headers :: dataRows)).2.get? (i + 1) = some rr ∧
      (rowNonEmpty r = true →
        rr = r ++ List.replicate (headers.length - r.length) (some "") ∧
        rr.length = max r.length headers.length ∧
        rr.take r.length = r) ∧
      (rowNonEmpty r = false → rr = r) := by
  cases dataRows with
  | nil => simp at hir
  | cons a rest =>
    have hmem : r ∈ a :: rest := by
      have := List.get?_eq_some.mp hir
      obtain ⟨h, hget⟩ := this
      exact hget ▸ List.get_mem _ _ _
    by_cases hk : (List.filter rowNonEmpty (a :: rest)).isEmpty = true
    · have hall : ∀ x ∈ a :: rest, ¬rowNonEmpty x = true :=
        List.filter_eq_nil_iff.mp (List.isEmpty_iff.mp hk)
      constructor
      · simp [convertTableToDataframe, hk]
      · refine ⟨r, ?_, ?_, fun _ => rfl⟩
        · simp only [convertTableToDataframe, hk, if_true]
          simpa using hir
        · intro htrue
          exact absurd htrue (hall r hmem)
    · constructor
      · simp [convertTableToDataframe, hk]
      · refine ⟨if rowNonEmpty r then padInPlace headers.length r else r, ?_, ?_, ?_⟩
        · simp only [convertTableToDataframe, hk, if_false]
          show (List.map _ (a :: rest)).get? i = _
          rw [List.get?_map, hir]
          rfl
        · intro htrue
          rw [if_pos htrue]
          refine ⟨rfl, ?_, List.take_left _ _⟩
          simp only [padInPlace, List.length_append, List.length_replicate]
          omega
        · intro hfalse
          rw [hfalse]
          simp

/-- Claim C10 (witness): the amended statement at the concrete table of
`c10_counterexample` — the surviving short row `[some "x"]` is extended in
place to `[some "x", some ""]`. -/
theorem c10_in_place_padding_witness :
    ∃ rr, (convertTableToDataframe
        [[some "A", some "B"], [some "x"], [none]]).2.get? 1 = some rr ∧
      rr = [some "x", some ""] := by
  obtain ⟨h0, rr, hrr, htrue, hfalse⟩ :=
    c10_in_place_padding [some "A", some "B"] [[some "x"], [none]] 0 [some "x"]
      (by decide)
  refine ⟨rr, hrr, ?_⟩
  rw [(htrue (by decide)).1]
  decide

/-!
## Claims about the schema mapper
-/

lemma transformRows_length :
    ∀ (rows : List (List Value)) (t r pk : ℕ),
      (transformRows t r pk rows).length = rows.length
  | [], _, _, _ => rfl
  | row :: rest, t, r, pk => by
    show (transformRows t (r + 1) (pk + 1) rest).length + 1 = rest.length + 1
    rw [transformRows_length rest]

lemma range'_app (s m n : ℕ) :
    List.range' s m ++ List.range' (s + m) n = List.range' s (m + n) := by
  induction m generalizing s with
  | zero => simp
  | succ m ih =>
    rw [show m + 1 + n = (m + n) + 1 from by omega, List.range'_succ, List.range'_succ,
      List.cons_append]
    congr 1
    rw [show s + (m + 1) = s + 1 + m from by omega]
    exact ih (s + 1)

lemma transformRows_map_pk :
    ∀ (rows : List (List Value)) (t r pk : ℕ),
      (transformRows t r pk rows).map CanonicalRecord.primary_key =
        List.range' pk rows.length
  | [], _, _, _ => rfl
  | row :: rest, t, r, pk => by
    show pk :: (transformRows t (r + 1) (pk + 1) rest).map CanonicalRecord.primary_key =
      List.range' pk (rest.length + 1)
    rw [transformRows_map_pk rest t (r + 1) (pk + 1), List.range'_succ]

lemma transformTables_map_pk :
    ∀ (ts : List (List (List Value))) (t pk : ℕ),
      (transformTables t pk ts).map CanonicalRecord.primary_key =
        List.range' pk (transformTables t pk ts).length
  | [], _, _ => rfl
  | tb :: ts, t, pk => by
    rw [show transformTables t pk (tb :: ts) =
      transformRows t 0 pk tb ++ transformTables (t + 1) (pk + tb.length) ts from rfl]
    rw [List.map_append, transformRows_map_pk,
      transformTables_map_pk ts (t + 1) (pk + tb.length), List.length_append,
      transformRows_length, range'_app]

/-- Claim C7 (confirmed).  Across one whole run of the Schema Mapper the
primary keys of the emitted records are exactly `1, 2, 3, ...` in emission
order: dense, starting at 1, strictly increasing by exactly 1 per record,
never resetting at table boundaries. -/
theorem c7_primary_keys (tables : List (List (List Value))) :
    (transform_to_standard_schema tables).map CanonicalRecord.primary_key =
      List.range' 1 (transform_to_standard_schema tables).length :=
  transformTables_map_pk tables 0 1

lemma transformRows_get? :
    ∀ (rows : List (List Value)) (t r pk i : ℕ),
      (transformRows t r pk rows).get? i =
        (rows.get? i).map (fun row => mkRecord t (r + i) (pk + i) row)
  | [], _, _, _, _ => by simp [transformRows]
  | row :: rest, t, r, pk, 0 => rfl
  | row :: rest, t, r, pk, i + 1 => by
    show (transformRows t (r + 1) (pk + 1) rest).get? i = _
    rw [transformRows_get? rest t (r + 1) (pk + 1) i,
      show r + 1 + i = r + (i + 1) from by omega,
      show pk + 1 + i = pk + (i + 1) from by omega]
    rfl

lemma exists_source_row (ts : List (List (List Value))) :
    ∀ (t pk i : ℕ) (rec : CanonicalRecord),
      (transformTables t pk ts).get? i = some rec →
      ∃ a b c row, ts.flatten.get? i = some row ∧ rec = mkRecord a b c row := by
  induction ts with
  | nil => intro t pk i rec h; simp [transformTables] at h
  | cons tb ts ih =>
    intro t pk i rec h
    rw [show transformTables t pk (tb :: ts) =
      transformRows t 0 pk tb ++ transformTables (t + 1) (pk + tb.length) ts from rfl] at h
    by_cases hi : i < tb.length
    · rw [List.get?_append (by rw [transformRows_length]; exact hi),
        transformRows_get?] at h
      cases hrow : tb.get? i with
      | none => rw [hrow] at h; simp at h
      | some row =>
        rw [hrow] at h
        simp only [Option.map_some', Option.some.injEq] at h
        refine ⟨t, 0 + i, pk + i, row, ?_, h.symm⟩
        show (tb ++ ts.flatten).get? i = some row
        rw [List.get?_append hi, hrow]
    · push_neg at hi
      rw [List.get?_append_right (by rw [transformRows_length]; exact hi),
        transformRows_length] at h
      obtain ⟨a, b, c, row, h1, h2⟩ := ih (t + 1) (pk + tb.length) (i - tb.length) rec h
      refine ⟨a, b, c, row, ?_, h2⟩
      show (tb ++ ts.flatten).get? i = some row
      rw [List.get?_append_right hi, h1]

lemma mkRecord_y2024 (a b c : ℕ) (row : List Value) :
    (mkRecord a b c row).y2024 =
      if 4 ≤ row.length then row.getLast?.getD .null else .null := by
  show (if 4 ≤ row.length then negIdx row 1 else .null) = _
  by_cases h : 4 ≤ row.length
  · rw [if_pos h, if_pos h]
    unfold negIdx
    rw [← List.getLast?_eq_get?]
  · rw [if_neg h, if_neg h]

/-- Claim C1 (counterexample).  The end-to-end scenario-1 row
`["Share capital", "(100)", "50"]` (after numeric conversion) has only 3
cells, so the `len(extracted_cols) >= 4/5/6` guards all fail and the single
produced record carries NO populated period field — all three year columns
are null, not `Number(-100)` and `Number(50)` as the claim states (only
`dim_1_name` is as claimed). -/
theorem c1_counterexample :
    (transform_to_standard_schema
        [[[Value.text "Share capital", Value.num (-100), Value.text "50"]]]).map
      (fun r => (r.dim_1_name, r.y2022, r.y2023, r.y2024)) =
      [(some "Share capital", Value.null, Value.null, Value.null)] := by decide

/-- Claim C1 (amended).  For every emitted record, the trailing-period
assignment is guarded by the row's cell count: the last cell goes to the
most recent period ('2024') only when the row has at least 4 cells, the
second-to-last to '2023' only with at least 5, and the third-to-last to
'2022' only with at least 6; otherwise the period field is null.  In
particular a 3-cell row such as scenario 1 produces a record with
`dim_1_name = "Share capital"` and all three period fields null. -/
theorem c1_trailing_periods (tables : List (List (List Value))) (i : ℕ)
    (rec : CanonicalRecord)
    (h : (transform_to_standard_schema tables).get? i = some rec) :
    ∃ row, tables.flatten.get? i = some row ∧
      rec.y2024 = (if 4 ≤ row.length then row.getLast?.getD .null else .null) ∧
      rec.y2023 = (if 5 ≤ row.length then (row.get? (row.length - 2)).getD .null
        else .null) ∧
      rec.y2022 = (if 6 ≤ row.length then (row.get? (row.length - 3)).getD .null
        else .null) ∧
      rec.dim_1_name = (row.head?).map pyStr := by
  obtain ⟨a, b, c, row, h1, h2⟩ := exists_source_row tables 0 1 i rec h
  subst h2
  refine ⟨row, h1, mkRecord_y2024 a b c row, rfl, rfl, ?_⟩
  cases row with
  | nil => rfl
  | cons v rest => simp [mkRecord]

/-- Claim C1 (witness): the amended trailing rule applied to the scenario-1
table — the produced record's source row is recovered and its period
fields are the guarded (here all-null) assignments. -/
theorem c1_trailing_periods_witness :
    ∃ row, ([[[Value.text "Share capital", Value.num (-100), Value.text "50"]]] :
        List (List (List Value))).flatten.get? 0 = some row ∧
      (mkRecord 0 0 1 [Value.text "Share capital", Value.num (-100),
        Value.text "50"]).y2024 =
        (if 4 ≤ row.length then row.getLast?.getD .null else .null) ∧
      (mkRecord 0 0 1 [Value.text "Share capital", Value.num (-100),
        Value.text "50"]).y2023 =
        (if 5 ≤ row.length then (row.get? (row.length - 2)).getD .null else .null) ∧
      (mkRecord 0 0 1 [Value.text "Share capital", Value.num (-100),
        Value.text "50"]).y2022 =
        (if 6 ≤ row.length then (row.get? (row.length - 3)).getD .null else .null) ∧
      (mkRecord 0 0 1 [Value.text "Share capital", Value.num (-100),
        Value.text "50"]).dim_1_name = (row.head?).map pyStr :=
  c1_trailing_periods
    [[[Value.text "Share capital", Value.num (-100), Value.text "50"]]] 0
    (mkRecord 0 0 1 [Value.text "Share capital", Value.num (-100), Value.text "50"])
    rfl
